import Mathlib

/-!
# InfoBerry client — shallow embedding and verification

A shallow Lean embedding of the InfoBerry kiosk client
(`src/info_berry/client/content.py`, `config.py`, `player.py`) and proofs
about it.

Modelling conventions:
* Python `int` is `Int` (arbitrary precision in both languages);
  `int(x)` applied to a value that is already an `int` is the identity.
* A Python exception escaping an expression is an explicit `Except PyErr`
  value; code that cannot raise is a plain function.
* Python attribute lookup on a `Content` object is modelled by
  `Content.callMethod`, which returns `.error (.attributeError name)` for
  any method name the class does not define — `content.py` defines exactly
  one URL-producing method, `render_url`.
* `uuid.uuid4()` (in `Content.new_id`) is nondeterministic, so the fresh id
  is passed in as an explicit `freshId : String` argument.
* The filesystem (`Path.exists`, `Path.expanduser().resolve()`) is an
  explicit environment `Fs` argument.
* `tempfile.NamedTemporaryFile` writes a document and returns its path as a
  `file://` URI; the temp path is nondeterministic, so the render target
  carries the name prefix and the full document that was written.
-/

namespace InfoBerry

/-- The `ContentType` literal of `content.py`:
`"url" | "html" | "image" | "video" | "error"`. -/
inductive ContentKind where
  | url
  | html
  | image
  | video
  | error
deriving DecidableEq, Repr

/-- A `Content` dataclass instance: `id`, `source`, optional `duration`,
and the class-level `kind` discriminator (each subclass fixes its own
`kind`, so a runtime value is the pair of the base fields and the kind of
the class it was built from).  The `metadata` dict is never read by any
code under verification and is omitted. -/
structure Content where
  kind : ContentKind
  id : String
  source : String
  duration : Option Int := none
deriving DecidableEq, Repr

/-- The `(kind, source)` tuple used as the identity key by
`ContentBank.set_items` and `ContentBank.diff`. -/
def Content.key (c : Content) : ContentKind × String :=
  (c.kind, c.source)

/-- A Python exception value (only the distinctions the client code can
observe matter). -/
inductive PyErr where
  | attributeError (name : String)
  | indexError
  | other (msg : String)
deriving DecidableEq, Repr

/-- `ContentBank` state: the private `_items` list and `_index` cursor. -/
structure ContentBank where
  items : List Content
  index : Nat
deriving DecidableEq, Repr

/-- `ContentBank.__init__(items)`: copies the list, cursor at 0. -/
def ContentBank.init (items : List Content) : ContentBank :=
  { items := items, index := 0 }

/-- The synthesized placeholder returned by `ContentBank.current` on an
empty bank: `ErrorContent(id=Content.new_id(), source="No content
configured", duration=5)`. -/
def noContentItem (freshId : String) : Content :=
  { kind := .error, id := freshId, source := "No content configured",
    duration := some 5 }

/-- `ContentBank.current()`: on an empty bank returns `(0, placeholder)`;
otherwise returns `(self._index, self._items[self._index])`.  The list
indexing is modelled with `get?`: an out-of-range cursor would raise
`IndexError` in Python, hence the `Except`. -/
def ContentBank.current (b : ContentBank) (freshId : String) :
    Except PyErr (Nat × Content) :=
  if b.items.isEmpty then
    .ok (0, noContentItem freshId)
  else
    match b.items.get? b.index with
    | some c => .ok (b.index, c)
    | none => .error .indexError

/-- `ContentBank.next_index()`: returns 0 leaving the bank unchanged when
empty, else advances the cursor to `(cursor + 1) % len(items)` and returns
the new cursor. -/
def ContentBank.nextIndex (b : ContentBank) : Nat × ContentBank :=
  if b.items.isEmpty then
    (0, b)
  else
    let i := (b.index + 1) % b.items.length
    (i, { b with index := i })

/-- `ContentBank.set_items(items)`: replaces `_items` with a copy of the
new list; cursor handling mirrors the source's `try`/`except`: reading
`old[self._index]` raises (→ cursor 0) when the old list is empty or the
cursor is out of range, `next(...)` raises `StopIteration` (→ cursor 0)
when no entry of the new list has the previously-current `(kind, source)`
key, and otherwise the cursor moves to the first matching position. -/
def ContentBank.setItems (b : ContentBank) (newItems : List Content) :
    ContentBank :=
  if newItems.isEmpty then
    { items := newItems, index := 0 }
  else
    match b.items.get? b.index with
    | none => { items := newItems, index := 0 }
    | some cur =>
      match newItems.findIdx? (fun it => decide (it.key = cur.key)) with
      | some i => { items := newItems, index := i }
      | none => { items := newItems, index := 0 }

/-- `ContentBank.duration_for(content, default_seconds)`: the item's own
duration if set, else the supplied default; `int()` on an `int` is the
identity.  Note the source applies no lower bound here. -/
def ContentBank.durationFor (_b : ContentBank) (content : Content)
    (defaultSeconds : Int) : Int :=
  match content.duration with
  | some d => d
  | none => defaultSeconds

/-- The dict comprehension `{(it.kind, it.source): i for i, it in
enumerate(items)}`, looked up at key `k`: later duplicates overwrite
earlier ones, so this finds the last enumerated pair whose key is `k`
(and returns the pair, matching a lookup of both the index and the item at
that index). -/
def keyFind (items : List Content) (k : ContentKind × String) :
    Option (Nat × Content) :=
  items.enum.reverse.find? (fun p => decide (p.2.key = k))

/-- The key set of a dict built over `items` (iteration order of a Python
set is unspecified; every property proved below is order-independent). -/
def keySet (items : List Content) : List (ContentKind × String) :=
  (items.map Content.key).dedup

/-- The `modified` entry for one common key: given the (position, item)
dict entries of the key in the old and new sequences, the pair of
positions when the two durations differ. -/
def modEntry :
    Option (Nat × Content) → Option (Nat × Content) → Option (Nat × Nat)
  | some (i, oit), some (j, nit) =>
    if oit.duration ≠ nit.duration then some (i, j) else none
  | _, _ => none

/-- The dict returned by `ContentBank.diff`. -/
structure DiffResult where
  removed : List Nat
  added : List Nat
  modified : List (Nat × Nat)
deriving DecidableEq, Repr

/-- `ContentBank.diff(new_items)`: positions of keys only in the old
sequence (`removed`), only in the new sequence (`added`), and pairs of
positions of common keys whose durations differ (`modified`); positions
come from the key→index dicts, so a duplicated key contributes its last
position.  Reads the bank without modifying it. -/
def ContentBank.diff (b : ContentBank) (newItems : List Content) :
    DiffResult :=
  let oldKeys := keySet b.items
  let newKeys := keySet newItems
  { removed :=
      (oldKeys.filter (fun k => decide (k ∉ newKeys))).filterMap
        (fun k => (keyFind b.items k).map Prod.fst)
  , added :=
      (newKeys.filter (fun k => decide (k ∉ oldKeys))).filterMap
        (fun k => (keyFind newItems k).map Prod.fst)
  , modified :=
      (oldKeys.filter (fun k => decide (k ∈ newKeys))).filterMap
        (fun k => modEntry (keyFind b.items k) (keyFind newItems k)) }

/-- `html.escape` with default `quote=True`: each special character is
replaced by its entity; the replacement is character-wise (the source
replaces `&` first precisely so that the net effect is this map). -/
def escapeChar (c : Char) : List Char :=
  if c = '&' then "&amp;".data
  else if c = '<' then "&lt;".data
  else if c = '>' then "&gt;".data
  else if c = '\x22' then "&quot;".data
  else if c = '\x27' then "&#x27;".data
  else [c]

/-- `html.escape(s)` over a whole string. -/
def htmlEscape (s : String) : String :=
  ⟨s.data.flatMap escapeChar⟩

/-- `_generate_html_wrapper`'s template up to `{html.escape(title)}`. -/
def wrapperPart1 : String :=
  "<!doctype html>\n<html>\n<head>\n  <meta charset=\"utf-8\">\n  <meta name=\"viewport\" content=\"width=device-width, initial-scale=1.0\">\n  <title>"

/-- The template between `{html.escape(title)}` and `{body_html}` (the
doubled braces of the f-string denote literal braces in the output). -/
def wrapperPart2 : String :=
  "</title>\n  <style>\n    * \x7b margin: 0; padding: 0; box-sizing: border-box; \x7d\n    html, body \x7b\n      height: 100%;\n      background: #000;\n      color: #fff;\n      font-family: -apple-system, BlinkMacSystemFont, \"Segoe UI\", Roboto, sans-serif;\n      overflow: hidden;\n    \x7d\n    .content \x7b\n      width: 100vw;\n      height: calc(100vh - 40px);\n      display: flex;\n      align-items: center;\n      justify-content: center;\n    \x7d\n    .content img \x7b\n      max-width: 100%;\n      max-height: 100%;\n      object-fit: contain;\n    \x7d\n    .content video \x7b\n      width: 100%;\n      height: 100%;\n      object-fit: contain;\n    \x7d\n    .footer \x7b\n      position: fixed;\n      bottom: 0;\n      width: 100%;\n      height: 40px;\n      background: rgba(0, 0, 0, 0.8);\n      display: flex;\n      align-items: center;\n      justify-content: center;\n      font-size: 14px;\n      color: #999;\n    \x7d\n  </style>\n</head>\n<body>\n  <div class=\"content\">\n    "

/-- The template between `{body_html}` and `{html.escape(footer)}`. -/
def wrapperPart3 : String :=
  "\n  </div>\n  <div class=\"footer\">"

/-- The template after `{html.escape(footer)}`. -/
def wrapperPart4 : String :=
  "</div>\n</body>\n</html>\n"

/-- `Content._generate_html_wrapper(body_html, title, footer)`. -/
def htmlWrapper (bodyHtml : String) (title : String) (footer : String) :
    String :=
  wrapperPart1 ++ htmlEscape title ++ wrapperPart2 ++ bodyHtml ++
    wrapperPart3 ++ htmlEscape footer ++ wrapperPart4

/-- What a `render_url` call produces: either a URL the browser navigates
to directly, or a temporary HTML file (named with the given prefix) whose
`file://` URI is returned — the interesting datum is the document written. -/
inductive RenderTarget where
  | page (url : String)
  | tempFile (pref : String) (doc : String)
deriving DecidableEq, Repr

/-- Filesystem environment: `Path(s).expanduser().resolve()` and
`Path.exists()`. -/
structure Fs where
  resolve : String → String
  pathExists : String → Bool

/-- `Path.as_uri()` of an (absolute, resolved) path.  Percent-encoding of
reserved characters is not modelled; no verified property depends on it. -/
def asUri (p : String) : String :=
  "file://" ++ p

/-- `Path.name`: the final path component. -/
def pathName (p : String) : String :=
  (p.splitOn "/").getLastD p

/-- The document `ErrorContent.render_url` writes: the escaped message
(`source`, or `"Unknown error"` when the source string is falsy) inside a
`<pre>` in the standard wrapper. -/
def errorRenderDoc (source : String) : String :=
  let msg := htmlEscape (if source = "" then "Unknown error" else source)
  htmlWrapper
    ("<pre style=\"color: #f66; padding: 20px;\">" ++ msg ++ "</pre>")
    "Error" "InfoBerry Error Display"

/-- `ErrorContent.render_url`: writes `errorRenderDoc` to a temp file with
prefix `"error_"`. -/
def errorRender (source : String) : RenderTarget :=
  .tempFile "error_" (errorRenderDoc source)

/-- `ImageContent.render_url`: if the resolved file does not exist, the
error-kind render of `"Image not found: {self.source}"`; otherwise the
wrapped `<img>` document written to a temp file. -/
def imageRender (fs : Fs) (c : Content) : RenderTarget :=
  let path := fs.resolve c.source
  if fs.pathExists path then
    let body := "<img src=\"" ++ htmlEscape (asUri path) ++ "\" alt=\"Image\">"
    .tempFile ("img_" ++ c.id ++ "_")
      (htmlWrapper body (pathName path) "Powered by InfoBerry · Image Display")
  else
    errorRender ("Image not found: " ++ c.source)

/-- `VideoContent.render_url`: analogous to `imageRender`, with the
multi-line `<video>` body of the source. -/
def videoRender (fs : Fs) (c : Content) : RenderTarget :=
  let path := fs.resolve c.source
  if fs.pathExists path then
    let body := "<video src=\"" ++ htmlEscape (asUri path) ++ "\" \n                          autoplay muted loop playsinline \n                          controlslist=\"nodownload noplaybackrate\" \n                          disablepictureinpicture></video>"
    .tempFile ("vid_" ++ c.id ++ "_")
      (htmlWrapper body (pathName path) "Powered by InfoBerry · Video Player")
  else
    errorRender ("Video not found: " ++ c.source)

/-- `render_url` dispatched on the class (`kind`) of the content object:
`UrlContent` returns its source directly, `HtmlFileContent` the `file://`
URI of the resolved source, and the remaining classes as above. -/
def renderUrl (fs : Fs) (c : Content) : RenderTarget :=
  match c.kind with
  | .url => .page c.source
  | .html => .page (asUri (fs.resolve c.source))
  | .image => imageRender fs c
  | .video => videoRender fs c
  | .error => errorRender c.source

/-- Python attribute lookup and call of a URL-producing method on a
content object: `content.py` defines `render_url` (on every class) and no
other URL-producing method, so any other name raises `AttributeError`. -/
def Content.callMethod (fs : Fs) (c : Content) (name : String) :
    Except PyErr RenderTarget :=
  if name = "render_url" then .ok (renderUrl fs c)
  else .error (.attributeError name)

/-! ## Player (`player.py`, `config.py`) -/

/-- `DisplayConfig` of `config.py`; dataclass equality is field-by-field,
matching the derived `DecidableEq`. -/
structure DisplayConfig where
  screen : String := ":0"
  width : Int := 1920
  height : Int := 1080
  rotation : Option String := none
deriving DecidableEq, Repr

/-- `BehaviorConfig` of `config.py`. -/
structure BehaviorConfig where
  rotationInterval : Int := 30
  refreshInterval : Option Int := none
deriving DecidableEq, Repr

/-- `AppConfig` of `config.py`. -/
structure AppConfig where
  display : DisplayConfig
  behavior : BehaviorConfig
  contents : List Content
deriving DecidableEq, Repr

/-- Python truthiness of `Optional[int]`: `None` and `0` are falsy. -/
def truthyOptInt : Option Int → Bool
  | none => false
  | some v => decide (v ≠ 0)

/-- Observable actions of the `Player` against its `Display` and event
loop, in program order.  `ensurePages` is the viewport sync
(`display.ensure_pages(urls)`); `waitFor s` is
`asyncio.wait_for(shutdown.wait(), timeout=s)`. -/
inductive PlayerEvent where
  | launch
  | close
  | ensurePages (targets : List RenderTarget)
  | show (idx : Nat)
  | reloadPage (idx : Nat)
  | spawnTask (name : String)
  | waitFor (seconds : Int)
  | sleep (seconds : Int)
  | logError
deriving DecidableEq, Repr

/-- The list comprehension `[c.to_url() for c in items]` of `Player.run`
and `Player._reload_config`: each element is produced by attribute lookup
of `to_url` on the content object; the first lookup to raise aborts the
whole comprehension with that exception. -/
def buildUrls (fs : Fs) : List Content → Except PyErr (List RenderTarget)
  | [] => .ok []
  | c :: rest => do
    let u ← c.callMethod fs "to_url"
    let us ← buildUrls fs rest
    .ok (u :: us)

/-- `Player.run` up to the point the shutdown event is awaited: launch the
display, sync viewports to the URL of every bank item (in bank order),
then spawn the rotate and config-watch tasks, and the refresh task when
`behavior.refresh_interval` is truthy.  Returns the emitted events and the
exception that escaped `run`, if any. -/
def playerRunStartup (fs : Fs) (cfg : AppConfig) (bank : ContentBank) :
    List PlayerEvent × Option PyErr :=
  match buildUrls fs bank.items with
  | .error e => ([.launch], some e)
  | .ok urls =>
    ([.launch, .ensurePages urls, .spawnTask "rotate", .spawnTask "cfgwatch"]
      ++ (if truthyOptInt cfg.behavior.refreshInterval
          then [.spawnTask "refresh"] else []),
     none)

/-- Result of one `Player._reload_config` transaction. -/
structure ReloadResult where
  cfg : AppConfig
  bank : ContentBank
  events : List PlayerEvent
  err : Option PyErr
deriving Repr

/-- `Player._reload_config` after a successful `load_config` (`newCfg`):
compare display settings field-by-field, compute the diff (for the log
line), swap the bank via `set_items`, build the URL list, then close and
re-launch the display exactly when the display settings changed, and sync
the viewports.  An exception while building the URL list escapes after the
bank swap but before any display call. -/
def reloadConfig (fs : Fs) (cfg : AppConfig) (bank : ContentBank)
    (newCfg : AppConfig) : ReloadResult :=
  let dispChanged := decide (newCfg.display ≠ cfg.display)
  let _diffForLog := bank.diff newCfg.contents
  let bank' := bank.setItems newCfg.contents
  match buildUrls fs bank'.items with
  | .error e => { cfg := newCfg, bank := bank', events := [], err := some e }
  | .ok urls =>
    { cfg := newCfg, bank := bank',
      events := (if dispChanged then [.close, .launch] else [])
        ++ [.ensurePages urls],
      err := none }

/-- Environment of one rotate/refresh loop iteration: the fresh id the
bank may need for its placeholder, and the outcomes of the awaited
display calls (`none` = the call succeeded). -/
structure LoopEnv where
  freshId : String
  showOutcome : Option PyErr := none
  reloadOutcome : Option PyErr := none

/-- The body of `Player._rotate_loop`'s `try:` block — current item, show
it, dwell `max(1, int(duration_for(cur, rotation_interval)))` on the timed
shutdown wait (a `TimeoutError` is caught and ignored), advance the
cursor.  First component: the exception that reached the `except`, if
any. -/
def rotateTickRaw (env : LoopEnv) (cfg : AppConfig) (b : ContentBank) :
    Except PyErr Unit × ContentBank × List PlayerEvent :=
  match b.current env.freshId with
  | .error e => (.error e, b, [])
  | .ok (idx, cur) =>
    match env.showOutcome with
    | some e => (.error e, b, [.show idx])
    | none =>
      let dur := max 1 (b.durationFor cur cfg.behavior.rotationInterval)
      let (_, b') := b.nextIndex
      (.ok (), b', [.show idx, .waitFor dur])

/-- One full iteration of `Player._rotate_loop`: the `except Exception`
handler turns any tick exception into a log line and a 1-second sleep and
the loop goes on — the boolean is whether the loop continues to its next
iteration. -/
def rotateStep (env : LoopEnv) (cfg : AppConfig) (b : ContentBank) :
    ContentBank × List PlayerEvent × Bool :=
  match rotateTickRaw env cfg b with
  | (.ok _, b', tr) => (b', tr, true)
  | (.error _, b', tr) => (b', tr ++ [.logError, .sleep 1], true)

/-- One full iteration of `Player._refresh_loop` (with `interval` fixed
before the loop): only the `TimeoutError` of the timed wait is inside a
`try`; the subsequent `bank.current()` and `display.reload(idx)` are not,
so an exception there escapes and terminates the loop task — the boolean
is whether the loop continues. -/
def refreshStep (env : LoopEnv) (interval : Int) (b : ContentBank) :
    List PlayerEvent × Bool :=
  match b.current env.freshId with
  | .error _ => ([.waitFor interval], false)
  | .ok (idx, _) =>
    match env.reloadOutcome with
    | some _ => ([.waitFor interval, .reloadPage idx], false)
    | none => ([.waitFor interval, .reloadPage idx], true)

/-- Environment of one config-watch iteration: whether the config file
exists, its current mtime, and the result of `load_config` if a reload is
attempted. -/
structure WatchEnv where
  pathExists : Bool
  mtime : Int
  loadResult : Except PyErr AppConfig

/-- Player state read and written by the config-watch loop. -/
structure WatchState where
  cfg : AppConfig
  bank : ContentBank
  lastMtime : Option Int
deriving Repr

/-- One full iteration of `Player._config_watch_loop`: sleep 1s, skip when
the file is missing, the recorded mtime is `None`, or the mtime has not
increased; otherwise record the new mtime and run the reload transaction.
The whole body sits in a `try: ... except Exception:` that logs and
continues, so the boolean (loop continues) is `true` on every path. -/
def watchStep (fs : Fs) (env : WatchEnv) (s : WatchState) :
    WatchState × List PlayerEvent × Bool :=
  if env.pathExists = false then (s, [.sleep 1], true)
  else
    match s.lastMtime with
    | none => (s, [.sleep 1], true)
    | some last =>
      if env.mtime ≤ last then (s, [.sleep 1], true)
      else
        let s1 : WatchState := { s with lastMtime := some env.mtime }
        match env.loadResult with
        | .error _ => (s1, [.sleep 1, .logError], true)
        | .ok newCfg =>
          let r := reloadConfig fs s1.cfg s1.bank newCfg
          match r.err with
          | some _ =>
            ({ s1 with cfg := r.cfg, bank := r.bank },
             [.sleep 1] ++ r.events ++ [.logError], true)
          | none =>
            ({ s1 with cfg := r.cfg, bank := r.bank },
             [.sleep 1] ++ r.events, true)

/-! ## Concrete fixtures used by witnesses and counterexamples -/

/-- A url item mirroring the repository's test fixture
(`https://example.com`, duration 10). -/
def cItemA : Content :=
  { kind := .url, id := "a", source := "https://example.com", duration := some 10 }

/-- A second url item with a different source. -/
def cItemB : Content :=
  { kind := .url, id := "b", source := "https://test.com", duration := some 20 }

/-- Same `(kind, source)` key as `cItemB`, different id and duration. -/
def cItemB2 : Content :=
  { kind := .url, id := "b2", source := "https://test.com", duration := some 25 }

/-- A filesystem on which no path exists. -/
def fsAbsent : Fs :=
  { resolve := fun s => s, pathExists := fun _ => false }

/-- The default configuration with a single url item. -/
def cfgBase : AppConfig :=
  { display := {}, behavior := {}, contents := [cItemA] }

/-- As `cfgBase` with `display.width` changed to 1280. -/
def cfgWide : AppConfig :=
  { display := { width := 1280 }, behavior := {}, contents := [cItemA] }

/-! ## Helper lemmas -/

/-- `n` successive `next_index` advances (dropping the returned indices). -/
def advanceN (b : ContentBank) : Nat → ContentBank
  | 0 => b
  | n + 1 => (advanceN b n).nextIndex.2

theorem nextIndex_snd_items (b : ContentBank) :
    (b.nextIndex.2).items = b.items := by
  unfold ContentBank.nextIndex
  by_cases h : b.items.isEmpty <;> simp [h]

theorem advanceN_items (b : ContentBank) (n : Nat) :
    (advanceN b n).items = b.items := by
  induction n with
  | zero => rfl
  | succ n ih =>
    show ((advanceN b n).nextIndex.2).items = b.items
    rw [nextIndex_snd_items, ih]

theorem advanceN_index_formula (b : ContentBank) (hne : b.items ≠ [])
    (hlt : b.index < b.items.length) :
    ∀ k, (advanceN b k).index = (b.index + k) % b.items.length := by
  intro k
  induction k with
  | zero => simpa using (Nat.mod_eq_of_lt hlt).symm
  | succ k ih =>
    have hItems : (advanceN b k).items = b.items := advanceN_items b k
    have hne' : ((advanceN b k).items).isEmpty = false := by
      rw [hItems]
      simpa [List.isEmpty_iff] using hne
    show ((advanceN b k).nextIndex.2).index = _
    unfold ContentBank.nextIndex
    simp only [hne', Bool.false_eq_true, if_false]
    rw [hItems, ih, Nat.mod_add_mod, Nat.add_assoc]

/-! ## Claim theorems -/

/-- C5: `next_index` is a no-op returning cursor 0 on an empty bank;
on a non-empty bank it moves the cursor to `(cursor + 1) mod length`
(returning the new cursor, items untouched); and from any reachable
cursor (`index < length`), `length` successive advances return the cursor
to its start, visiting pairwise-distinct cursors on the way (no skip, no
repeat). -/
theorem next_index_advance_spec (b : ContentBank) :
    (b.items = [] → b.nextIndex = (0, b))
  ∧ (b.items ≠ [] →
       b.nextIndex.1 = (b.index + 1) % b.items.length
     ∧ (b.nextIndex.2).items = b.items
     ∧ (b.nextIndex.2).index = (b.index + 1) % b.items.length)
  ∧ (b.items ≠ [] → b.index < b.items.length →
       (advanceN b b.items.length).index = b.index
     ∧ ∀ k1 k2, k1 < b.items.length → k2 < b.items.length →
         (advanceN b k1).index = (advanceN b k2).index → k1 = k2) := by
  refine ⟨fun h => ?_, fun h => ?_, fun h hlt => ⟨?_, ?_⟩⟩
  · unfold ContentBank.nextIndex
    simp [h]
  · have h' : b.items.isEmpty = false := by simpa [List.isEmpty_iff] using h
    unfold ContentBank.nextIndex
    simp [h']
  · rw [advanceN_index_formula b h hlt]
    rw [Nat.add_mod_right]
    exact Nat.mod_eq_of_lt hlt
  · intro k1 k2 hk1 hk2 heq
    rw [advanceN_index_formula b h hlt, advanceN_index_formula b h hlt] at heq
    have hc : k1 ≡ k2 [MOD b.items.length] :=
      Nat.ModEq.add_left_cancel' b.index heq
    have : k1 % b.items.length = k2 % b.items.length := hc
    rwa [Nat.mod_eq_of_lt hk1, Nat.mod_eq_of_lt hk2] at this

/-- C5 witness: on a two-item bank with cursor 0, two advances close the
cycle. -/
theorem next_index_advance_spec_witness :
    (advanceN (ContentBank.init [cItemA, cItemB]) 2).index = 0 :=
  ((next_index_advance_spec (ContentBank.init [cItemA, cItemB])).2.2
    (by decide) (by decide)).1

/-- C2 counterexample: `duration_for` applies no `≥ 1` floor — an item
whose configured duration is 0 yields 0, not a positive integer. -/
theorem duration_for_floor_cex :
    (ContentBank.init []).durationFor
      { kind := .url, id := "i", source := "s", duration := some 0 } 30 < 1 := by
  decide

/-- C2 (amended): `duration_for` returns the item's own duration when set,
else the supplied default, unchanged — no floor is applied inside it (the
`max(1, ·)` floor lives in the rotate loop, at the point of use). -/
theorem duration_for_spec (b : ContentBank) (c : Content) (d : Int) :
    b.durationFor c d = c.duration.getD d := by
  cases h : c.duration <;> simp [ContentBank.durationFor, h]

/-- C10: whenever one rotate-loop iteration reaches its timed wait, the
dwell passed to the wait is exactly `max(1, duration_for(current,
rotation_interval))`, hence at least 1 second, for every bank, every
environment and every configured rotation interval (including zero or
negative ones). -/
theorem rotate_dwell_spec (env : LoopEnv) (cfg : AppConfig) (b : ContentBank) :
    ∀ d, PlayerEvent.waitFor d ∈ (rotateStep env cfg b).2.1 →
      1 ≤ d ∧ ∃ idx cur, b.current env.freshId = .ok (idx, cur) ∧
        d = max 1 (b.durationFor cur cfg.behavior.rotationInterval) := by
  intro d hd
  unfold rotateStep rotateTickRaw at hd
  cases hcur : b.current env.freshId with
  | error e => simp [hcur] at hd
  | ok p =>
    obtain ⟨idx, cur⟩ := p
    cases hshow : env.showOutcome with
    | some e => simp [hcur, hshow] at hd
    | none =>
      simp [hcur, hshow] at hd
      exact ⟨hd ▸ le_max_left 1 _, idx, cur, rfl, hd⟩

/-- C10 witness: a bank whose current item has duration 10 emits a wait of
10 = max(1, 10) seconds. -/
theorem rotate_dwell_spec_witness :
    1 ≤ (10 : Int) ∧ ∃ idx cur,
      (ContentBank.init [cItemA]).current "f" = .ok (idx, cur) ∧
      (10 : Int) = max 1 ((ContentBank.init [cItemA]).durationFor cur
        cfgBase.behavior.rotationInterval) :=
  rotate_dwell_spec { freshId := "f" } cfgBase (ContentBank.init [cItemA]) 10
    (by decide)

/-- C3 counterexample: an exception raised by `display.reload` inside a
refresh-loop iteration is not caught — the refresh loop terminates
(continue-flag `false`), contradicting the claim that all three loops are
resilient. -/
theorem refresh_loop_terminates_cex :
    (refreshStep { freshId := "f", reloadOutcome := some (.other "reload failed") }
      60 (ContentBank.init [cItemA])).2 = false := by
  decide

/-- C3 (amended): the rotate and config-watch loops are resilient — every
iteration ends with the loop continuing, whatever exceptions the
environment injects — while the refresh loop guards only the timed wait's
`TimeoutError`: its iteration continues exactly when `bank.current()`
succeeds and `display.reload` does not raise. -/
theorem loop_resilience_spec :
    (∀ env cfg b, (rotateStep env cfg b).2.2 = true)
  ∧ (∀ fs env s, (watchStep fs env s).2.2 = true)
  ∧ (∀ env interval b, (refreshStep env interval b).2 = true ↔
      ((∃ p, b.current env.freshId = .ok p) ∧ env.reloadOutcome = none)) := by
  refine ⟨fun env cfg b => ?_, fun fs env s => ?_, fun env interval b => ?_⟩
  · unfold rotateStep
    rcases h : rotateTickRaw env cfg b with ⟨res, b', tr⟩
    cases res <;> simp
  · unfold watchStep
    rcases h1 : env.pathExists with _ | _ <;> simp
    rcases s.lastMtime with _ | last <;> simp
    by_cases h2 : env.mtime ≤ last <;> simp [h2]
    rcases env.loadResult with e | newCfg <;> simp
    rcases h3 : (reloadConfig fs s.cfg s.bank newCfg).err <;> simp
  · unfold refreshStep
    cases hcur : b.current env.freshId with
    | error e => simp [hcur]
    | ok p =>
      cases hrel : env.reloadOutcome with
      | some e => simp [hrel]
      | none => simp [hrel]

/-- C8 counterexample: the synthesized placeholder's message is
`"No content configured"`, not the claimed `"no content configured"`. -/
theorem current_empty_message_cex :
    (ContentBank.init []).current "f" = .ok (0, noContentItem "f")
  ∧ (noContentItem "f").source ≠ "no content configured" :=
  ⟨rfl, by decide⟩

/-- C8 (amended): on an empty bank `current` never raises and returns
index 0 with a synthesized error-kind item, message `"No content
configured"`, duration 5; the rotate loop handles it like any item — its
iteration shows index 0 and dwells exactly 5 seconds, for every
configuration. -/
theorem current_empty_spec (freshId : String) :
    (ContentBank.init []).current freshId =
      .ok (0, { kind := .error, id := freshId,
                source := "No content configured", duration := some 5 })
  ∧ ∀ cfg, (rotateStep { freshId := freshId } cfg (ContentBank.init [])).2.1 =
      [.show 0, .waitFor 5] := by
  exact ⟨rfl, fun cfg => rfl⟩

/-- C1: `Player.run` cannot reach the viewport sync for any configuration
with a non-empty content list — the URL comprehension looks up `to_url`,
a method `content.py` does not define (it defines `render_url`), so the
startup raises `AttributeError` right after launching the display, and no
loop task is ever spawned. -/
theorem run_startup_attr_missing (fs : Fs) (cfg : AppConfig) (c : Content)
    (rest : List Content) :
    playerRunStartup fs cfg (ContentBank.init (c :: rest)) =
      ([.launch], some (.attributeError "to_url")) := by
  have h : buildUrls fs (c :: rest) = .error (.attributeError "to_url") := rfl
  unfold playerRunStartup
  rw [show (ContentBank.init (c :: rest)).items = c :: rest from rfl, h]

/-- C6: the reload transaction with `display.width` changed and a
non-empty content list never reaches the close/open/sync sequence: the
bank is swapped, but the `to_url` lookup raises `AttributeError` first
and no display event happens at all. -/
theorem reload_config_attr_missing :
    (reloadConfig fsAbsent cfgBase (ContentBank.init cfgBase.contents) cfgWide).err
      = some (.attributeError "to_url")
  ∧ (reloadConfig fsAbsent cfgBase (ContentBank.init cfgBase.contents) cfgWide).events
      = []
  ∧ cfgWide.display ≠ cfgBase.display
  ∧ (reloadConfig fsAbsent cfgBase (ContentBank.init cfgBase.contents) cfgWide).bank
      = (ContentBank.init cfgBase.contents).setItems cfgWide.contents :=
  ⟨rfl, rfl, by decide, rfl⟩

/-- C4: `set_items` replaces the item sequence wholesale; the cursor moves
to the first position of the new sequence whose `(kind, source)` key
matches the previously-current entry, and resets to 0 when the new
sequence is empty, when there is no previously-current entry, or when no
key matches. -/
theorem set_items_spec (b : ContentBank) (new : List Content) :
    (b.setItems new).items = new
  ∧ (new = [] → (b.setItems new).index = 0)
  ∧ (b.items[b.index]? = none → (b.setItems new).index = 0)
  ∧ ∀ cur, b.items[b.index]? = some cur →
      ((∃ it ∈ new, it.key = cur.key) →
        ∃ j nit, (b.setItems new).index = j ∧ new[j]? = some nit ∧
          nit.key = cur.key ∧
          ∀ i it2, i < j → new[i]? = some it2 → it2.key ≠ cur.key)
    ∧ ((∀ it ∈ new, it.key ≠ cur.key) → (b.setItems new).index = 0) := by
  by_cases hemp : new = []
  · subst hemp
    refine ⟨rfl, fun _ => rfl, fun _ => rfl, fun cur hcur => ⟨?_, fun _ => rfl⟩⟩
    rintro ⟨it, hit, -⟩
    exact absurd hit (List.not_mem_nil it)
  · have hemp' : new.isEmpty = false := by simpa [List.isEmpty_iff] using hemp
    cases hget : b.items[b.index]? with
    | none =>
      have hred : b.setItems new = { items := new, index := 0 } := by
        simp [ContentBank.setItems, hemp', hget]
      rw [hred]
      exact ⟨rfl, fun h => absurd h hemp, fun _ => rfl,
        fun cur hcur => absurd hcur (by simp)⟩
    | some cur =>
      cases hfind : new.findIdx? (fun it => decide (it.key = cur.key)) with
      | none =>
        have hred : b.setItems new = { items := new, index := 0 } := by
          simp [ContentBank.setItems, hemp', hget, hfind]
        rw [hred]
        rw [List.findIdx?_eq_none_iff] at hfind
        refine ⟨rfl, fun h => absurd h hemp, fun h => absurd h (by simp),
          fun curQ hcurQ => ?_⟩
        injection hcurQ with hcurQ
        subst hcurQ
        refine ⟨?_, fun _ => rfl⟩
        rintro ⟨it, hit, hkey⟩
        have := hfind it hit
        simp [hkey] at this
      | some j =>
        have hred : b.setItems new = { items := new, index := j } := by
          simp [ContentBank.setItems, hemp', hget, hfind]
        rw [hred]
        rw [List.findIdx?_eq_some_iff_findIdx_eq] at hfind
        obtain ⟨hjlt, hjeq⟩ := hfind
        subst hjeq
        refine ⟨rfl, fun h => absurd h hemp, fun h => absurd h (by simp),
          fun curQ hcurQ => ?_⟩
        injection hcurQ with hcurQ
        subst hcurQ
        have hp : new[new.findIdx (fun it => decide (it.key = cur.key))].key
            = cur.key := by
          have := @List.findIdx_getElem _ (fun it => decide (it.key = cur.key))
            new hjlt
          simpa using this
        constructor
        · rintro ⟨it, hit, hkey⟩
          refine ⟨_, _, rfl, ?_, hp, ?_⟩
          · rw [List.getElem?_eq_getElem hjlt]
          · intro i it2 hij hi2
            have hilt : i < new.length := lt_of_lt_of_le hij (le_of_lt hjlt)
            rw [List.getElem?_eq_getElem hilt] at hi2
            injection hi2 with hi2
            subst hi2
            have := List.not_of_lt_findIdx hij
            simpa using this
        · intro hnone
          exact absurd hp (hnone _ (List.getElem_mem hjlt))

/-- C4 witness: with the cursor on the second of two items, replacing the
items by a list whose head carries the same key relocates the cursor to
position 0 and installs the new sequence. -/
theorem set_items_spec_witness :
    (({ items := [cItemA, cItemB], index := 1 } : ContentBank).setItems
        [cItemB2, cItemA]).items = [cItemB2, cItemA]
  ∧ (({ items := [cItemA, cItemB], index := 1 } : ContentBank).setItems
        [cItemB2, cItemA]).index = 0 := by
  have h := set_items_spec ({ items := [cItemA, cItemB], index := 1 }) [cItemB2, cItemA]
  refine ⟨h.1, ?_⟩
  obtain ⟨j, nit, hidx, hget, hkey, hmin⟩ :=
    (h.2.2.2 cItemB rfl).1 ⟨cItemB2, by decide, by decide⟩
  match j, hidx with
  | 0, hidx => exact hidx
  | j + 1, hidx =>
    exact absurd (by decide : cItemB2.key = cItemB.key)
      (hmin 0 cItemB2 (Nat.succ_pos j) rfl)

theorem mem_of_getElem_eq_some {l : List Content} {i : Nat} {a : Content}
    (h : l[i]? = some a) : a ∈ l := by
  rw [List.getElem?_eq_some] at h
  obtain ⟨hl, rfl⟩ := h
  exact List.getElem_mem hl

theorem modEntry_eq_some (o n : Option (Nat × Content)) (p : Nat × Nat)
    (h : modEntry o n = some p) :
    ∃ i oit j nit, o = some (i, oit) ∧ n = some (j, nit) ∧ p = (i, j) ∧
      oit.duration ≠ nit.duration := by
  unfold modEntry at h
  split at h
  · rename_i i oit j nit
    by_cases hdur : oit.duration ≠ nit.duration
    · rw [if_pos hdur] at h
      injection h with h
      exact ⟨i, oit, j, nit, rfl, rfl, h.symm, hdur⟩
    · rw [if_neg hdur] at h
      exact absurd h (by simp)
  all_goals exact absurd h (by simp)

theorem mem_keySet_iff (items : List Content) (k : ContentKind × String) :
    k ∈ keySet items ↔ ∃ it ∈ items, it.key = k := by
  simp [keySet, List.mem_dedup]

theorem keyFind_eq_some (items : List Content) (k : ContentKind × String)
    (i : Nat) (it : Content) (h : keyFind items k = some (i, it)) :
    items[i]? = some it ∧ it.key = k := by
  unfold keyFind at h
  have hp := List.find?_some h
  have hm := List.mem_of_find?_eq_some h
  rw [List.mem_reverse, List.mem_enum_iff_getElem?] at hm
  exact ⟨hm, by simpa using hp⟩

theorem keyFind_isSome_of_mem (items : List Content)
    (k : ContentKind × String) (h : k ∈ keySet items) :
    ∃ i it, keyFind items k = some (i, it) := by
  rw [mem_keySet_iff] at h
  obtain ⟨it, hit, hkey⟩ := h
  have hex : ∃ x ∈ items.enum.reverse,
      (fun p : Nat × Content => decide (p.2.key = k)) x = true := by
    rw [List.mem_iff_get?] at hit
    obtain ⟨n, hn⟩ := hit
    rw [List.get?_eq_getElem?] at hn
    refine ⟨(n, it), ?_, by simpa using hkey⟩
    rw [List.mem_reverse, List.mem_enum_iff_getElem?]
    exact hn
  rw [← List.find?_isSome] at hex
  unfold keyFind
  cases hfind : List.find? (fun p : Nat × Content => decide (p.2.key = k))
      items.enum.reverse with
  | none => rw [hfind] at hex; simp at hex
  | some p =>
    obtain ⟨i, it2⟩ := p
    exact ⟨i, it2, rfl⟩

/-- C7: `diff` partitions the `(kind, source)` keys — every reported
removed position holds a key present in the old sequence and absent from
the new one and every such key is reported (symmetrically for added
positions); every modified pair points at a common key with differing
durations, and conversely every common key whose dict entries carry
differing durations is reported in `modified` at those positions; and no
key is both added and removed.  `diff` is a pure observer: it takes the
bank and the new sequence and returns only the report, so neither
sequence nor the cursor can change. -/
theorem diff_spec (b : ContentBank) (new : List Content) :
    (∀ i ∈ (b.diff new).removed, ∃ it, b.items[i]? = some it ∧
        it.key ∈ keySet b.items ∧ it.key ∉ keySet new)
  ∧ (∀ k, k ∈ keySet b.items → k ∉ keySet new →
        ∃ i it, i ∈ (b.diff new).removed ∧ b.items[i]? = some it ∧ it.key = k)
  ∧ (∀ j ∈ (b.diff new).added, ∃ it, new[j]? = some it ∧
        it.key ∈ keySet new ∧ it.key ∉ keySet b.items)
  ∧ (∀ k, k ∈ keySet new → k ∉ keySet b.items →
        ∃ j it, j ∈ (b.diff new).added ∧ new[j]? = some it ∧ it.key = k)
  ∧ (∀ p ∈ (b.diff new).modified, ∃ oit nit,
        b.items[p.1]? = some oit ∧ new[p.2]? = some nit ∧
        oit.key = nit.key ∧ oit.duration ≠ nit.duration)
  ∧ (∀ i ∈ (b.diff new).removed, ∀ j ∈ (b.diff new).added,
        ∀ oit nit, b.items[i]? = some oit → new[j]? = some nit →
          oit.key ≠ nit.key)
  ∧ (∀ k i oit j nit, keyFind b.items k = some (i, oit) →
        keyFind new k = some (j, nit) → oit.duration ≠ nit.duration →
        (i, j) ∈ (b.diff new).modified) := by
  have hrem : ∀ i ∈ (b.diff new).removed, ∃ it, b.items[i]? = some it ∧
      it.key ∈ keySet b.items ∧ it.key ∉ keySet new := by
    intro i hi
    unfold ContentBank.diff at hi
    simp only [List.mem_filterMap, List.mem_filter] at hi
    obtain ⟨k, ⟨hkold, hknew⟩, hmap⟩ := hi
    rw [Option.map_eq_some'] at hmap
    obtain ⟨⟨i', it⟩, hfind, hfst⟩ := hmap
    cases hfst
    obtain ⟨hget, hkey⟩ := keyFind_eq_some _ _ _ _ hfind
    refine ⟨it, hget, ?_, ?_⟩
    · rw [hkey]; exact hkold
    · rw [hkey]; simpa using hknew
  have hadd : ∀ j ∈ (b.diff new).added, ∃ it, new[j]? = some it ∧
      it.key ∈ keySet new ∧ it.key ∉ keySet b.items := by
    intro j hj
    unfold ContentBank.diff at hj
    simp only [List.mem_filterMap, List.mem_filter] at hj
    obtain ⟨k, ⟨hknew, hkold⟩, hmap⟩ := hj
    rw [Option.map_eq_some'] at hmap
    obtain ⟨⟨j', it⟩, hfind, hfst⟩ := hmap
    cases hfst
    obtain ⟨hget, hkey⟩ := keyFind_eq_some _ _ _ _ hfind
    refine ⟨it, hget, ?_, ?_⟩
    · rw [hkey]; exact hknew
    · rw [hkey]; simpa using hkold
  refine ⟨hrem, ?_, hadd, ?_, ?_, ?_, ?_⟩
  · intro k hkold hknew
    obtain ⟨i, it, hfind⟩ := keyFind_isSome_of_mem b.items k hkold
    obtain ⟨hget, hkey⟩ := keyFind_eq_some _ _ _ _ hfind
    refine ⟨i, it, ?_, hget, hkey⟩
    unfold ContentBank.diff
    simp only [List.mem_filterMap, List.mem_filter]
    exact ⟨k, ⟨hkold, by simpa using hknew⟩, by rw [hfind]; rfl⟩
  · intro k hknew hkold
    obtain ⟨j, it, hfind⟩ := keyFind_isSome_of_mem new k hknew
    obtain ⟨hget, hkey⟩ := keyFind_eq_some _ _ _ _ hfind
    refine ⟨j, it, ?_, hget, hkey⟩
    unfold ContentBank.diff
    simp only [List.mem_filterMap, List.mem_filter]
    exact ⟨k, ⟨hknew, by simpa using hkold⟩, by rw [hfind]; rfl⟩
  · intro p hp
    unfold ContentBank.diff at hp
    simp only [List.mem_filterMap, List.mem_filter] at hp
    obtain ⟨k, ⟨hkold, hknew⟩, hmap⟩ := hp
    obtain ⟨io, oit, jn, nit, hfo, hfn, hpeq, hdur⟩ :=
      modEntry_eq_some _ _ _ hmap
    obtain ⟨hgo, hko⟩ := keyFind_eq_some _ _ _ _ hfo
    obtain ⟨hgn, hkn⟩ := keyFind_eq_some _ _ _ _ hfn
    subst hpeq
    exact ⟨oit, nit, hgo, hgn, by rw [hko, hkn], hdur⟩
  · intro i hi j hj oit nit hgo hgn
    obtain ⟨oit', hgo', _, hnotnew⟩ := hrem i hi
    obtain ⟨nit', hgn', hinnew, _⟩ := hadd j hj
    rw [hgo] at hgo'
    rw [hgn] at hgn'
    injection hgo' with hgo'
    injection hgn' with hgn'
    subst hgo'
    subst hgn'
    intro hk
    rw [hk] at hnotnew
    exact hnotnew hinnew
  · intro k i oit j nit hfo hfn hdur
    obtain ⟨hgo, hko⟩ := keyFind_eq_some _ _ _ _ hfo
    obtain ⟨hgn, hkn⟩ := keyFind_eq_some _ _ _ _ hfn
    have hkold : k ∈ keySet b.items :=
      (mem_keySet_iff _ _).mpr ⟨oit, mem_of_getElem_eq_some hgo, hko⟩
    have hknew : k ∈ keySet new :=
      (mem_keySet_iff _ _).mpr ⟨nit, mem_of_getElem_eq_some hgn, hkn⟩
    unfold ContentBank.diff
    simp only [List.mem_filterMap, List.mem_filter]
    refine ⟨k, ⟨hkold, by simpa using hknew⟩, ?_⟩
    rw [hfo, hfn]
    rw [show modEntry (some (i, oit)) (some (j, nit)) =
        if oit.duration ≠ nit.duration then some (i, j) else none from rfl]
    rw [if_pos hdur]

/-- Same key and id as `cItemA`, different duration. -/
def cItemA99 : Content :=
  { kind := .url, id := "a", source := "https://example.com", duration := some 99 }

/-- C7 witness: with old `[cItemA, cItemB]` and new `[cItemA]`, the key of
`cItemB` is reported as removed at its old position 1, and it is indeed
absent from the new sequence; and a duration change of the common key of
`cItemA` is reported in `modified` at positions (0, 0). -/
theorem diff_spec_witness :
    Content.key cItemB ∉ keySet [cItemA]
  ∧ (1 : Nat) ∈ ((ContentBank.init [cItemA, cItemB]).diff [cItemA]).removed
  ∧ (0, 0) ∈ ((ContentBank.init [cItemA]).diff [cItemA99]).modified := by
  have h := diff_spec (ContentBank.init [cItemA, cItemB]) [cItemA]
  obtain ⟨i, it, hmem, hget, hkey⟩ :=
    h.2.1 (Content.key cItemB) (by decide) (by decide)
  have hi : i = 1 := by
    have : ((ContentBank.init [cItemA, cItemB]).items)[i]? = some it := hget
    match i, this with
    | 0, h0 =>
      injection h0 with h0
      rw [← h0] at hkey
      exact absurd hkey (by decide)
    | 1, _ => rfl
    | n + 2, h2 => simp [ContentBank.init] at h2
  subst hi
  refine ⟨by decide, hmem, ?_⟩
  exact (diff_spec (ContentBank.init [cItemA]) [cItemA99]).2.2.2.2.2.2
    (Content.key cItemA) 0 cItemA 0 cItemA99 (by decide) (by decide) (by decide)

theorem htmlEscape_append (s t : String) :
    htmlEscape (s ++ t) = htmlEscape s ++ htmlEscape t := by
  apply String.ext
  simp [htmlEscape, String.data_append]

theorem flatMap_escape_plain (l : List Char)
    (h : ∀ c ∈ l, escapeChar c = [c]) : l.flatMap escapeChar = l := by
  induction l with
  | nil => rfl
  | cons a l ih =>
    rw [List.flatMap_cons, h a (List.mem_cons_self a l),
      ih (fun c hc => h c (List.mem_cons_of_mem a hc))]
    rfl

theorem htmlEscape_plain (s : String) (h : ∀ c ∈ s.data, escapeChar c = [c]) :
    htmlEscape s = s := by
  apply String.ext
  exact flatMap_escape_plain s.data h

/-- An image item whose backing file is absent on `fsAbsent` and whose
path contains `&`, a character `html.escape` rewrites. -/
def cImageAmp : Content :=
  { kind := .image, id := "amp", source := "/tmp/a&b.png", duration := none }

/-- Linear scan: `true` iff the character list has no `'&'` immediately
followed by `'b'`. -/
def noAmpB : List Char → Bool
  | c1 :: c2 :: rest => !(c1 == '&' && c2 == 'b') && noAmpB (c2 :: rest)
  | _ => true

theorem noAmpB_append (u v : List Char) :
    noAmpB (u ++ '&' :: 'b' :: v) = false := by
  induction u with
  | nil => rfl
  | cons a u ih =>
    cases u with
    | nil =>
      simp only [List.nil_append] at ih
      rw [show noAmpB ([a] ++ '&' :: 'b' :: v)
          = ((!(a == '&' && '&' == 'b')) && noAmpB ('&' :: 'b' :: v)) from rfl,
        ih, Bool.and_false]
    | cons a2 u2 =>
      simp only [List.cons_append] at ih ⊢
      rw [show noAmpB (a :: a2 :: (u2 ++ '&' :: 'b' :: v))
          = ((!(a == '&' && a2 == 'b'))
            && noAmpB (a2 :: (u2 ++ '&' :: 'b' :: v))) from rfl,
        ih, Bool.and_false]

set_option maxRecDepth 100000 in
/-- C9 counterexample: for the missing image `/tmp/a&b.png` the resolution
is the error-kind temp-file render, but `html.escape` rewrites the `&`, so
the written document does not contain the literal missing path — the
claim's universal "contains the literal missing path" fails here. -/
theorem image_not_found_cex :
    imageRender fsAbsent cImageAmp
      = .tempFile "error_" (errorRenderDoc ("Image not found: " ++ "/tmp/a&b.png"))
  ∧ ¬ ("/tmp/a&b.png".data <:+:
        (errorRenderDoc ("Image not found: " ++ "/tmp/a&b.png")).data) := by
  refine ⟨rfl, ?_⟩
  rintro ⟨s, t, hst⟩
  have hsplit : "/tmp/a&b.png".data
      = "/tmp/a".data ++ '&' :: 'b' :: ".png".data := by decide
  have hfalse : noAmpB
      (errorRenderDoc ("Image not found: " ++ "/tmp/a&b.png")).data = false := by
    rw [← hst, hsplit]
    rw [show s ++ ("/tmp/a".data ++ '&' :: 'b' :: ".png".data) ++ t
        = (s ++ "/tmp/a".data) ++ '&' :: 'b' :: (".png".data ++ t) by
      simp [List.append_assoc]]
    exact noAmpB_append _ _
  have htrue : noAmpB
      (errorRenderDoc ("Image not found: " ++ "/tmp/a&b.png")).data = true := by
    decide
  rw [htrue] at hfalse
  exact Bool.noConfusion hfalse

/-- C9 (amended): resolving an `image` item whose backing file does not
exist never raises (the embedding is a total function into render
targets): it yields exactly the error-kind render whose message is
`"Image not found: " ++ source` — the message always carries the literal
path — and the temp-file document always contains the HTML-escaped
message; the document contains the path verbatim whenever the path is
free of HTML-escaped characters (`& < > " '`), and for other paths it
holds the escaped form instead. -/
theorem image_not_found_amended (fs : Fs) (c : Content)
    (hmiss : fs.pathExists (fs.resolve c.source) = false) :
    imageRender fs c = errorRender ("Image not found: " ++ c.source)
  ∧ (∃ doc, imageRender fs c = .tempFile "error_" doc ∧
      (htmlEscape ("Image not found: " ++ c.source)).data <:+: doc.data)
  ∧ ((∀ ch ∈ c.source.data, escapeChar ch = [ch]) →
      ∃ doc, imageRender fs c = .tempFile "error_" doc ∧
        c.source.data <:+: doc.data) := by
  have h1 : imageRender fs c = errorRender ("Image not found: " ++ c.source) := by
    simp [imageRender, hmiss]
  have hne : ("Image not found: " ++ c.source) ≠ "" := by
    intro hcontra
    have hd := congrArg String.data hcontra
    rw [String.data_append] at hd
    rcases List.append_eq_nil.mp hd with ⟨hfirst, -⟩
    exact absurd hfirst (by decide)
  refine ⟨h1, ?_, ?_⟩
  · refine ⟨errorRenderDoc ("Image not found: " ++ c.source), h1, ?_⟩
    refine ⟨(wrapperPart1 ++ htmlEscape "Error" ++ wrapperPart2
        ++ "<pre style=\"color: #f66; padding: 20px;\">").data,
      ("</pre>" ++ wrapperPart3 ++ htmlEscape "InfoBerry Error Display"
        ++ wrapperPart4).data, ?_⟩
    simp only [errorRenderDoc, htmlWrapper, if_neg hne,
      String.data_append, List.append_assoc]
  · intro hplain
    have hmsg : htmlEscape ("Image not found: " ++ c.source)
        = htmlEscape "Image not found: " ++ c.source := by
      rw [htmlEscape_append, htmlEscape_plain c.source hplain]
    refine ⟨errorRenderDoc ("Image not found: " ++ c.source), h1, ?_⟩
    refine ⟨(wrapperPart1 ++ htmlEscape "Error" ++ wrapperPart2
        ++ "<pre style=\"color: #f66; padding: 20px;\">"
        ++ htmlEscape "Image not found: ").data,
      ("</pre>" ++ wrapperPart3 ++ htmlEscape "InfoBerry Error Display"
        ++ wrapperPart4).data, ?_⟩
    simp only [errorRenderDoc, htmlWrapper, if_neg hne, hmsg,
      String.data_append, List.append_assoc]

/-- An image item whose backing file is absent on `fsAbsent`. -/
def cImageMissing : Content :=
  { kind := .image, id := "img1", source := "/tmp/missing.png",
    duration := none }

/-- C9 witness: the missing `/tmp/missing.png` image (an escape-free path)
resolves to the error-kind target whose document contains the literal
path. -/
theorem image_not_found_amended_witness :
    imageRender fsAbsent cImageMissing
      = errorRender ("Image not found: " ++ "/tmp/missing.png")
  ∧ ∃ doc, imageRender fsAbsent cImageMissing = .tempFile "error_" doc ∧
      "/tmp/missing.png".data <:+: doc.data :=
  ⟨(image_not_found_amended fsAbsent cImageMissing rfl).1,
   (image_not_found_amended fsAbsent cImageMissing rfl).2.2 (by decide)⟩

end InfoBerry
